import Mathlib

/-!
Shallow embedding of `src/ofac_sanctions_processor.py`: the OFAC sanctions
extraction and deduplication pipeline.  Strings are modelled as lists of
characters; the Python string operations used by the code
(`str.replace` with one-character patterns, `str.lower`, `str.strip`,
f-string concatenation) are modelled character-wise.  Records parsed from
the XML are modelled after extraction: each scalar field is already the
text of the element or `""` when the element is absent, and the identifier
sub-list is the list of `(idType, idNumber)` pairs in document order.
External effects (the HTTP download, the Sheets API) are modelled as
explicit parameters: a fetch result is an `Except` value, and the rows the
code would write are returned as data.
-/

namespace OFAC

/-- Python strings, modelled as lists of characters. -/
abbrev Str := List Char

/-- `DIGITAL_CURRENCY_TYPES` from the top of the module. -/
def DIGITAL_CURRENCY_TYPES : List Str :=
  [ "Digital Currency Address - ETH".toList
  , "Digital Currency Address - XBT".toList
  , "Digital Currency Address - TRX".toList
  , "Digital Currency Address - USDT".toList
  , "Digital Currency Address - USDC".toList ]

/-- Python `s.replace(a, b)` where `a` and `b` are single characters. -/
def pyReplace (a b : Char) (s : Str) : Str :=
  s.map fun c => if c = a then b else c

/-- Python `s.replace(a, '')` where `a` is a single character. -/
def pyRemove (a : Char) (s : Str) : Str :=
  s.filter fun c => c ≠ a

/-- Python `s.lower()` (character-wise lowercasing). -/
def pyLower (s : Str) : Str :=
  s.map Char.toLower

/-- Python `s.strip()`: drop whitespace from both ends. -/
def pyStrip (s : Str) : Str :=
  ((s.dropWhile Char.isWhitespace).reverse.dropWhile Char.isWhitespace).reverse

/-- One `sdnEntry` record after XML extraction: scalar fields (absent
elements already replaced by the empty string, as in `process_entry`) and
the `idList` sub-list as `(idType, idNumber)` pairs in document order.
The `akaList` and `addressList` sub-lists are loosely-typed field maps. -/
structure RawRecord where
  uid : Str
  sdnType : Str
  firstName : Str
  lastName : Str
  ids : List (Str × Str)
  akaList : List (List (Str × Str))
  addressList : List (List (Str × Str))
deriving DecidableEq

/-- The dict returned by `process_entry` for an included record. -/
structure NormalizedEntity where
  uid : Str
  sdnType : Str
  firstName : Str
  lastName : Str
  idList : List (Str × Str)
  akaList : List (List (Str × Str))
  addressList : List (List (Str × Str))
  websites : List Str
  entity_id : Str
deriving DecidableEq

/-- The loop over `idList` in `process_entry` (lines 62-70): left to right,
every id is kept in the general list (modelled by `RawRecord.ids` being
carried through unchanged); here we compute the `has_digital_currency`
flag and the `websites` list, following the `if`/`elif` structure. -/
def scanIds : List (Str × Str) → Bool × List Str
  | [] => (false, [])
  | p :: rest =>
    let r := scanIds rest
    if p.1 ∈ DIGITAL_CURRENCY_TYPES then (true, r.2)
    else if p.1 = "Website".toList then (r.1, p.2 :: r.2)
    else r

/-- The entity-id derivation of `process_entry` (lines 76-82):
`f"{firstName}_{lastName}"` for Individuals, else `lastName`;
then `.replace(' ', '_').lower()`, then `.replace('.', '_')`,
then `.replace(',', '')`. -/
def makeEntityId (sdnType firstName lastName : Str) : Str :=
  let base :=
    if sdnType = "Individual".toList then firstName ++ ('_' :: lastName)
    else lastName
  pyRemove ',' (pyReplace '.' '_' (pyLower (pyReplace ' ' '_' base)))

/-- `process_entry` (lines 47-84): build the result dict, scan the id
list, return `None` when no digital-currency identifier was found,
otherwise attach the derived `entity_id`. -/
def process_entry (r : RawRecord) : Option NormalizedEntity :=
  let s := scanIds r.ids
  if s.1 = false then none
  else some
    { uid := r.uid
    , sdnType := r.sdnType
    , firstName := r.firstName
    , lastName := r.lastName
    , idList := r.ids
    , akaList := r.akaList
    , addressList := r.addressList
    , websites := s.2
    , entity_id := makeEntityId r.sdnType r.firstName r.lastName }

/-- The entity-id recomputation inside `write_to_sheet` (lines 172-178):
textually the same formula as in `process_entry`. -/
def sheetEntityId (sdnType firstName lastName : Str) : Str :=
  let base :=
    if sdnType = "Individual".toList then firstName ++ ('_' :: lastName)
    else lastName
  pyRemove ',' (pyReplace '.' '_' (pyLower (pyReplace ' ' '_' base)))

/-- The website recomputation inside `write_to_sheet` (line 168):
`[id['idNumber'] for id in entry['idList'] if id['idType'] == 'Website']`. -/
def sheetWebsites (idList : List (Str × Str)) : List Str :=
  (idList.filter fun p => p.1 = "Website".toList).map Prod.snd

/-- One data row of the detail table (line 182-190). -/
structure DetailRow where
  uid : Str
  sdnType : Str
  firstName : Str
  lastName : Str
  address : Str
  entity_id : Str
  websites_str : Str
deriving DecidableEq

/-- A detail row as the list of cells written to the sheet. -/
def DetailRow.toCells (r : DetailRow) : List Str :=
  [r.uid, r.sdnType, r.firstName, r.lastName, r.address, r.entity_id, r.websites_str]

/-- The header row of the detail table (line 161). -/
def headerRow : List Str :=
  [ "UID".toList, "SDN Type".toList, "First Name".toList, "Last Name".toList
  , "Digital Currency Address".toList, "Entity ID".toList, "Websites".toList ]

/-- The detail rows `write_to_sheet` emits for one entity (lines 164-190):
one row per identifier whose kind is a digital-currency kind, each row
carrying the uid, the scalar fields, the address, the recomputed
entity id and the comma-joined recomputed website list. -/
def detailRowsFor (e : NormalizedEntity) : List DetailRow :=
  let digital_currency_addresses :=
    (e.idList.filter fun p => p.1 ∈ DIGITAL_CURRENCY_TYPES).map Prod.snd
  let websites_str := List.intercalate ", ".toList (sheetWebsites e.idList)
  let eid := sheetEntityId e.sdnType e.firstName e.lastName
  digital_currency_addresses.map fun address =>
    { uid := e.uid, sdnType := e.sdnType, firstName := e.firstName
    , lastName := e.lastName, address := address, entity_id := eid
    , websites_str := websites_str }

/-- The per-entity record `write_to_sheet` stores in `entities_to_append`
(lines 193-198). -/
structure AppendEntity where
  entity_id : Str
  firstName : Str
  lastName : Str
  websites : List Str
deriving DecidableEq

/-- Lines 193-198 of `write_to_sheet`: the entry passed on to the SoT
append step, with entity id and websites recomputed from the id list. -/
def entityToAppend (e : NormalizedEntity) : AppendEntity :=
  { entity_id := sheetEntityId e.sdnType e.firstName e.lastName
  , firstName := e.firstName
  , lastName := e.lastName
  , websites := sheetWebsites e.idList }

/-- One row built inside the loop of `append_new_entity_ids`
(lines 115-124): date, source tag, entity id, first website or empty,
stripped display name, status. -/
def newEntityRow (current_date : Str) (e : AppendEntity) : List Str :=
  [ current_date
  , "ofac_automation".toList
  , e.entity_id
  , (match e.websites with | [] => [] | w :: _ => w)
  , pyStrip (e.firstName ++ (' ' :: e.lastName))
  , "ofac sanctioned".toList ]

/-- The row-building loop of `append_new_entity_ids` (lines 110-124):
walk the entities in order, skip those whose entity id is already in the
existing set, append a row for each of the others.  The existing set is
modelled by a list used only for membership tests. -/
def append_new_entity_ids (current_date : Str) (entities : List AppendEntity)
    (existing_entity_ids : List Str) : List (List Str) :=
  entities.foldl
    (fun new_values entity =>
      if entity.entity_id ∈ existing_entity_ids then new_values
      else new_values ++ [newEntityRow current_date entity])
    []

/-- `read_existing_entity_ids` (lines 96-106): the Sheets fetch of column
`SoT!C:C` is modelled by an `Except` parameter holding the row lists; on
a fetch error the exception is caught and the empty set is returned,
otherwise the set of first cells of the non-empty rows. -/
def read_existing_entity_ids (fetch : Except Unit (List (List Str))) : List Str :=
  match fetch with
  | Except.error _ => []
  | Except.ok values => values.filterMap List.head?

/-- `parse_xml_data` (lines 36-45): the parse attempt is modelled by an
`Except` parameter; a parse error is caught and the empty entry list is
returned. -/
def parse_xml_data (doc : Except Unit (List RawRecord)) : List RawRecord :=
  match doc with
  | Except.error _ => []
  | Except.ok entries => entries

/-- What one run writes, as data: the number of entries that survived
`process_entry`, the full cell grid written to the detail sheet (`none`
would mean no write happens there), and the rows appended to the SoT
new-entity log. -/
structure PipelineOutput where
  processedCount : Nat
  detailWrite : Option (List (List Str))
  appendRows : List (List Str)
deriving DecidableEq

/-- The data flow of `main` together with `write_to_sheet` (lines 241-263
and 150-213): parse (a parse error yields the empty entry list), filter
and normalize via `process_entry`, always update the detail sheet with
the header row plus the fan-out rows, then read the existing ids and
build the SoT append rows. -/
def runPipeline (doc : Except Unit (List RawRecord)) (current_date : Str)
    (existingFetch : Except Unit (List (List Str))) : PipelineOutput :=
  let entries := parse_xml_data doc
  let processed_data := entries.filterMap process_entry
  let values := headerRow :: processed_data.flatMap fun e => (detailRowsFor e).map DetailRow.toCells
  let entities_to_append := processed_data.map entityToAppend
  let existing := read_existing_entity_ids existingFetch
  { processedCount := processed_data.length
  , detailWrite := some values
  , appendRows := append_new_entity_ids current_date entities_to_append existing }

/-! ### Helper lemmas -/

theorem scanIds_fst (ids : List (Str × Str)) :
    (scanIds ids).1 = ids.any fun p => decide (p.1 ∈ DIGITAL_CURRENCY_TYPES) := by
  induction ids with
  | nil => rfl
  | cons p rest ih =>
    simp only [scanIds, List.any_cons]
    by_cases h : p.1 ∈ DIGITAL_CURRENCY_TYPES
    · rw [if_pos h]; simp [h]
    · rw [if_neg h]
      by_cases hw : p.1 = "Website".toList
      · rw [if_pos hw]; simp [h, ih]
      · rw [if_neg hw]; simp [h, ih]

theorem scanIds_snd (ids : List (Str × Str)) :
    (scanIds ids).2 = sheetWebsites ids := by
  induction ids with
  | nil => rfl
  | cons p rest ih =>
    simp only [scanIds]
    by_cases h : p.1 ∈ DIGITAL_CURRENCY_TYPES
    · rw [if_pos h]
      have hw : ¬ p.1 = "Website".toList := by
        intro he; rw [he] at h; exact absurd h (by decide)
      have hb : decide (p.1 = "Website".toList) = false := by
        simpa using hw
      simp only [sheetWebsites, List.filter_cons, hb, Bool.false_eq_true,
        if_false, ih]
    · rw [if_neg h]
      by_cases hw : p.1 = "Website".toList
      · rw [if_pos hw]
        have hb : decide (p.1 = "Website".toList) = true := by
          simpa using hw
        simp only [sheetWebsites, List.filter_cons, hb, if_true, List.map_cons, ih]
      · rw [if_neg hw]
        have hb : decide (p.1 = "Website".toList) = false := by
          simpa using hw
        simp only [sheetWebsites, List.filter_cons, hb, Bool.false_eq_true,
          if_false, ih]

theorem toNat_ofNat_valid (n : Nat) (h : n.isValidChar) :
    (Char.ofNat n).toNat = n := by
  simp only [Char.ofNat, dif_pos h, Char.ofNatAux, Char.toNat, UInt32.toNat]
  simp [BitVec.toNat_ofNatLt]

theorem toLower_ne_space {c : Char} (h : c ≠ ' ') : Char.toLower c ≠ ' ' := by
  have hdef : Char.toLower c =
      if c.toNat ≥ 65 ∧ c.toNat ≤ 90 then Char.ofNat (c.toNat + 32) else c := rfl
  rw [hdef]
  by_cases hr : c.toNat ≥ 65 ∧ c.toNat ≤ 90
  · rw [if_pos hr]
    intro he
    have hv : (Char.ofNat (c.toNat + 32)).toNat = c.toNat + 32 :=
      toNat_ofNat_valid _ (Or.inl (by omega))
    rw [he] at hv
    have h32 : (' ' : Char).toNat = 32 := by decide
    omega
  · rw [if_neg hr]; exact h

theorem lower_replace_space_comm (s : Str) :
    pyLower (pyReplace ' ' '_' s) = pyReplace ' ' '_' (pyLower s) := by
  simp only [pyLower, pyReplace, List.map_map]
  apply List.map_congr_left
  intro c _
  simp only [Function.comp]
  by_cases h : c = ' '
  · subst h; decide
  · have h2 : Char.toLower c ≠ ' ' := toLower_ne_space h
    simp [h, h2]

theorem append_eq_map_filter (current_date : Str) (entities : List AppendEntity)
    (existing : List Str) :
    append_new_entity_ids current_date entities existing =
      (entities.filter fun e => decide (e.entity_id ∉ existing)).map
        (newEntityRow current_date) := by
  suffices h : ∀ acc : List (List Str),
      entities.foldl
        (fun new_values entity =>
          if entity.entity_id ∈ existing then new_values
          else new_values ++ [newEntityRow current_date entity]) acc =
      acc ++ (entities.filter fun e => decide (e.entity_id ∉ existing)).map
        (newEntityRow current_date) by
    simpa using h []
  induction entities with
  | nil => intro acc; simp
  | cons e rest ih =>
    intro acc
    by_cases hm : e.entity_id ∈ existing
    · simp [List.foldl_cons, hm, ih]
    · simp [List.foldl_cons, hm, ih]

theorem process_entry_none (r : RawRecord) (h : (scanIds r.ids).1 = false) :
    process_entry r = none := by
  simp [process_entry, h]

theorem process_entry_some (r : RawRecord) (h : (scanIds r.ids).1 = true) :
    process_entry r = some
      { uid := r.uid, sdnType := r.sdnType, firstName := r.firstName
      , lastName := r.lastName, idList := r.ids, akaList := r.akaList
      , addressList := r.addressList, websites := (scanIds r.ids).2
      , entity_id := makeEntityId r.sdnType r.firstName r.lastName } := by
  simp [process_entry, h]

/-! ### Claim theorems -/

/-- C1: a raw record whose identifier sub-list contains no identifier of
one of the five recognized digital-currency kinds is excluded by
`process_entry` (returns `none`), regardless of every other field; a
record with at least one such identifier yields a normalized entity. -/
theorem C1_digital_currency_filter (r : RawRecord) :
    ((∀ p ∈ r.ids, p.1 ∉ DIGITAL_CURRENCY_TYPES) → process_entry r = none)
  ∧ ((∃ p ∈ r.ids, p.1 ∈ DIGITAL_CURRENCY_TYPES) →
      ∃ e, process_entry r = some e) := by
  constructor
  · intro h
    have hs : (scanIds r.ids).1 = false := by
      rw [scanIds_fst]
      simp only [List.any_eq_false, decide_eq_true_eq]
      exact h
    simp [process_entry, hs]
  · rintro ⟨p, hp, hdc⟩
    have hs : (scanIds r.ids).1 = true := by
      rw [scanIds_fst]
      exact List.any_eq_true.mpr ⟨p, hp, by simpa using hdc⟩
    exact ⟨_, process_entry_some r hs⟩

/-- C1 witness: a record with only a "Website" identifier is excluded; a
record with one ETH digital-currency identifier is included. -/
theorem C1_digital_currency_filter_witness :
    process_entry
      ⟨"100".toList, "Entity".toList, [], "Acme".toList,
        [("Website".toList, "http://a.example".toList)], [], []⟩ = none
  ∧ ∃ e, process_entry
      ⟨"101".toList, "Individual".toList, "John".toList, "Doe".toList,
        [("Digital Currency Address - ETH".toList, "0xabc".toList)], [], []⟩
      = some e :=
  ⟨(C1_digital_currency_filter _).1 (by decide),
   (C1_digital_currency_filter _).2 (by decide)⟩

/-- C2, counterexample: on type "Individual", first name "John", last
name "A. Smith, Jr.", normalization does not derive the entity id
"john_a__smith_jr" the claim states. -/
theorem C2_example_entity_id_cex :
    (process_entry
        ⟨"1".toList, "Individual".toList, "John".toList, "A. Smith, Jr.".toList,
          [("Digital Currency Address - ETH".toList, "0xabc".toList)], [], []⟩).map
      (fun e => e.entity_id) ≠ some "john_a__smith_jr".toList := by
  decide

/-- C2, amended: on type "Individual", first name "John", last name
"A. Smith, Jr.", normalization derives the entity id "john_a__smith_jr_"
(the final period of "Jr." also becomes an underscore). -/
theorem C2_example_entity_id :
    (process_entry
        ⟨"1".toList, "Individual".toList, "John".toList, "A. Smith, Jr.".toList,
          [("Digital Currency Address - ETH".toList, "0xabc".toList)], [], []⟩).map
      (fun e => e.entity_id) = some "john_a__smith_jr_".toList := by
  decide

/-- Modelled from the spec (for the refinement claim C3): the spec's
stated order of transformations — build the base string, lowercase it
first, then replace each space with an underscore, then each period with
an underscore, then remove each comma. -/
def specEntityId (sdnType firstName lastName : Str) : Str :=
  let base :=
    if sdnType = "Individual".toList then firstName ++ ('_' :: lastName)
    else lastName
  pyRemove ',' (pyReplace '.' '_' (pyReplace ' ' '_' (pyLower base)))

/-- C3: the code's order of transformations (spaces to underscores, then
lowercase, then periods to underscores, then commas removed) agrees with
the spec's order (lowercase first) on every entity type, first name and
last name. -/
theorem C3_entity_id_order_equiv (sdnType firstName lastName : Str) :
    makeEntityId sdnType firstName lastName
      = specEntityId sdnType firstName lastName := by
  simp only [makeEntityId, specEntityId]
  rw [lower_replace_space_comm]

/-- C4: the derived entity id is a pure function of (entity type, first
name, last name): two raw records agreeing on those three fields that
both normalize successfully get the same entity id, whatever their other
fields are. -/
theorem C4_entity_id_noninterference (r1 r2 : RawRecord)
    (e1 e2 : NormalizedEntity)
    (ht : r1.sdnType = r2.sdnType) (hf : r1.firstName = r2.firstName)
    (hl : r1.lastName = r2.lastName)
    (h1 : process_entry r1 = some e1) (h2 : process_entry r2 = some e2) :
    e1.entity_id = e2.entity_id := by
  cases hb1 : (scanIds r1.ids).1 with
  | false =>
    rw [process_entry_none r1 hb1] at h1
    exact absurd h1 (by simp)
  | true =>
    cases hb2 : (scanIds r2.ids).1 with
    | false =>
      rw [process_entry_none r2 hb2] at h2
      exact absurd h2 (by simp)
    | true =>
      rw [process_entry_some r1 hb1, Option.some.injEq] at h1
      rw [process_entry_some r2 hb2, Option.some.injEq] at h2
      rw [← h1, ← h2]
      simp [ht, hf, hl]

/-- Sample records for the C4 witness: same (type, first, last), all
other fields different. -/
def c4rec1 : RawRecord :=
  ⟨"1".toList, "Individual".toList, "John".toList, "Doe".toList,
    [("Digital Currency Address - ETH".toList, "0xa".toList)], [], []⟩

def c4rec2 : RawRecord :=
  ⟨"2".toList, "Individual".toList, "John".toList, "Doe".toList,
    [("Digital Currency Address - XBT".toList, "bc1q".toList),
     ("Website".toList, "http://w.example".toList)], [], []⟩

def c4ent1 : NormalizedEntity :=
  ⟨"1".toList, "Individual".toList, "John".toList, "Doe".toList,
    [("Digital Currency Address - ETH".toList, "0xa".toList)], [], [], [],
    "john_doe".toList⟩

def c4ent2 : NormalizedEntity :=
  ⟨"2".toList, "Individual".toList, "John".toList, "Doe".toList,
    [("Digital Currency Address - XBT".toList, "bc1q".toList),
     ("Website".toList, "http://w.example".toList)], [], [],
    ["http://w.example".toList], "john_doe".toList⟩

/-- C4 witness: two concrete records differing in uid, identifiers and
websites but agreeing on (type, first, last) normalize to entities with
the same entity id. -/
theorem C4_entity_id_noninterference_witness :
    process_entry c4rec1 = some c4ent1 ∧ process_entry c4rec2 = some c4ent2
  ∧ c4ent1.entity_id = c4ent2.entity_id :=
  ⟨by decide, by decide,
   C4_entity_id_noninterference c4rec1 c4rec2 c4ent1 c4ent2
     (by decide) (by decide) (by decide) (by decide) (by decide)⟩

/-- C5: for every entity, the sink writer emits one detail row per
identifier of a recognized digital-currency kind, and every row carries
the recomputed entity id and the entity's uid. -/
theorem C5_detail_fanout (e : NormalizedEntity) :
    (detailRowsFor e).length
      = (e.idList.filter fun p => decide (p.1 ∈ DIGITAL_CURRENCY_TYPES)).length
  ∧ ∀ row ∈ detailRowsFor e,
      row.entity_id = sheetEntityId e.sdnType e.firstName e.lastName
      ∧ row.uid = e.uid := by
  constructor
  · simp [detailRowsFor]
  · intro row hrow
    simp only [detailRowsFor, List.mem_map] at hrow
    obtain ⟨a, _, rfl⟩ := hrow
    exact ⟨rfl, rfl⟩

/-- Sample entity for the C5 witness: two ETH addresses, one XBT address
and one unrelated identifier. -/
def c5ent : NormalizedEntity :=
  ⟨"7".toList, "Entity".toList, [], "Acme".toList,
    [("Digital Currency Address - ETH".toList, "0x1".toList),
     ("Digital Currency Address - ETH".toList, "0x2".toList),
     ("Digital Currency Address - XBT".toList, "b1".toList),
     ("Passport".toList, "p".toList)], [], [], [], "acme".toList⟩

/-- First detail row the sink writer emits for `c5ent`. -/
def c5row : DetailRow :=
  ⟨"7".toList, "Entity".toList, [], "Acme".toList, "0x1".toList,
    "acme".toList, []⟩

/-- C5 witness: the sample entity with 2 ETH and 1 XBT identifiers gets
exactly 3 detail rows, and a concrete row of them carries the recomputed
entity id and the uid. -/
theorem C5_detail_fanout_witness :
    (detailRowsFor c5ent).length
        = (c5ent.idList.filter fun p => decide (p.1 ∈ DIGITAL_CURRENCY_TYPES)).length
  ∧ (detailRowsFor c5ent).length = 3
  ∧ c5row.entity_id = sheetEntityId c5ent.sdnType c5ent.firstName c5ent.lastName
  ∧ c5row.uid = c5ent.uid :=
  ⟨(C5_detail_fanout c5ent).1, by decide,
   (C5_detail_fanout c5ent).2 c5row (by decide)⟩

/-- C6: the reconciler emits, in input order, exactly one row per entity
whose entity id is not in the existing set, each row being the run date,
the fixed source tag, the entity id, the first website or the empty
string, the stripped "first last" display name, and the fixed status. -/
theorem C6_reconciler_rows (current_date : Str) (entities : List AppendEntity)
    (existing : List Str) :
    append_new_entity_ids current_date entities existing
      = (entities.filter fun e => decide (e.entity_id ∉ existing)).map fun e =>
          [ current_date
          , "ofac_automation".toList
          , e.entity_id
          , (match e.websites with | [] => [] | w :: _ => w)
          , pyStrip (e.firstName ++ (' ' :: e.lastName))
          , "ofac sanctioned".toList ] := by
  rw [append_eq_map_filter]
  rfl

/-- Sample entity for the C7 counterexample. -/
def c7ent : AppendEntity :=
  ⟨"x".toList, "A".toList, "B".toList, []⟩

/-- C7, counterexample: with an input sequence holding two entities that
collide on the same entity id and an empty existing set, one run emits
two rows with the same entity id — the emitted rows of a single run are
not duplicate-free. -/
theorem C7_no_dup_rows_cex :
    ¬ ((append_new_entity_ids "2025-01-01".toList [c7ent, c7ent] []).map
        (fun row => row.getD 2 [])).Nodup := by
  decide

/-- C7, amended: reconciliation is deterministic (the same input and the
same existing snapshot give the same rows), and when the input entities
have pairwise distinct entity ids the rows of one run contain no two
rows with the same entity id. -/
theorem C7_reconcile_idempotent (current_date : Str)
    (entities : List AppendEntity) (existing : List Str)
    (h : (entities.map fun e => e.entity_id).Nodup) :
    append_new_entity_ids current_date entities existing
      = append_new_entity_ids current_date entities existing
  ∧ ((append_new_entity_ids current_date entities existing).map
      (fun row => row.getD 2 [])).Nodup := by
  refine ⟨rfl, ?_⟩
  rw [append_eq_map_filter, List.map_map]
  have hc : ((fun row : List Str => row.getD 2 []) ∘ newEntityRow current_date)
      = fun e => e.entity_id := by
    funext e; rfl
  rw [hc]
  exact List.Nodup.sublist ((List.filter_sublist entities).map _) h

/-- Second sample entity for the C7 witness, with a distinct entity id. -/
def c7ent2 : AppendEntity :=
  ⟨"y".toList, "C".toList, "D".toList, ["http://c.example".toList]⟩

/-- C7 witness: on two entities with distinct entity ids, reconciliation
returns the same rows both times and the emitted entity ids are
duplicate-free. -/
theorem C7_reconcile_idempotent_witness :
    (([c7ent, c7ent2].map fun e => e.entity_id).Nodup)
  ∧ (append_new_entity_ids "2025-01-01".toList [c7ent, c7ent2] ["z".toList]
      = append_new_entity_ids "2025-01-01".toList [c7ent, c7ent2] ["z".toList])
  ∧ ((append_new_entity_ids "2025-01-01".toList [c7ent, c7ent2] ["z".toList]).map
      (fun row => row.getD 2 [])).Nodup :=
  ⟨by decide,
   (C7_reconcile_idempotent "2025-01-01".toList [c7ent, c7ent2] ["z".toList]
      (by decide)).1,
   (C7_reconcile_idempotent "2025-01-01".toList [c7ent, c7ent2] ["z".toList]
      (by decide)).2⟩

/-- C8: when the existing-id fetch fails, the caught error yields the
empty existing set, every entity of the run is classified as new, and
the run continues to the append step with one row per entity. -/
theorem C8_store_read_failure_recovery (entries : List RawRecord)
    (current_date : Str) (err : Unit) :
    read_existing_entity_ids (Except.error err) = []
  ∧ (runPipeline (Except.ok entries) current_date (Except.error err)).appendRows
      = ((entries.filterMap process_entry).map entityToAppend).map
          (newEntityRow current_date) := by
  refine ⟨rfl, ?_⟩
  simp only [runPipeline, read_existing_entity_ids, parse_xml_data]
  rw [append_eq_map_filter]
  have hf : ((entries.filterMap process_entry).map entityToAppend).filter
      (fun e => decide (e.entity_id ∉ ([] : List Str)))
      = (entries.filterMap process_entry).map entityToAppend := by
    apply List.filter_eq_self.mpr
    intro a _
    simp
  rw [hf]

/-- C9, counterexample: on a parse error the run does not abort with no
output — `parse_xml_data` returns the empty entry list, `main` continues,
and the detail-table write still happens (the header row is written). -/
theorem C9_parse_error_cex :
    (runPipeline (Except.error ()) [] (Except.ok [])).processedCount = 0
  ∧ (runPipeline (Except.error ()) [] (Except.ok [])).detailWrite ≠ none := by
  decide

/-- C9, amended: on a parse error the run continues with zero entities
processed: the detail table is still written, receiving exactly the
header row, and no row is appended to the new-entity log. -/
theorem C9_parse_error_behavior (err : Unit) (current_date : Str)
    (existingFetch : Except Unit (List (List Str))) :
    runPipeline (Except.error err) current_date existingFetch
      = { processedCount := 0
        , detailWrite := some [headerRow]
        , appendRows := [] } := by
  rfl

/-- C10: normalization keeps every identifier (digital-currency and
Website kinds included) in the entity's identifier list in document
order, and the sink writer's recomputations of the entity id and of the
website list from that list agree with the values derived during
normalization. -/
theorem C10_retention_and_recomputation (r : RawRecord)
    (e : NormalizedEntity) (h : process_entry r = some e) :
    e.idList = r.ids
  ∧ sheetEntityId e.sdnType e.firstName e.lastName = e.entity_id
  ∧ sheetWebsites e.idList = e.websites := by
  cases hb : (scanIds r.ids).1 with
  | false =>
    rw [process_entry_none r hb] at h
    exact absurd h (by simp)
  | true =>
    rw [process_entry_some r hb, Option.some.injEq] at h
    rw [← h]
    exact ⟨rfl, rfl, (scanIds_snd r.ids).symm⟩

/-- Sample record and entity for the C10 witness. -/
def c10rec : RawRecord :=
  ⟨"9".toList, "Individual".toList, "Jane".toList, "Roe".toList,
    [("Website".toList, "http://r.example".toList),
     ("Digital Currency Address - TRX".toList, "T123".toList),
     ("Passport".toList, "P9".toList)], [], []⟩

def c10ent : NormalizedEntity :=
  ⟨"9".toList, "Individual".toList, "Jane".toList, "Roe".toList,
    [("Website".toList, "http://r.example".toList),
     ("Digital Currency Address - TRX".toList, "T123".toList),
     ("Passport".toList, "P9".toList)], [], [],
    ["http://r.example".toList], "jane_roe".toList⟩

/-- C10 witness: a concrete included record keeps all three identifiers
in order, and the sink writer's recomputations agree with the stored
entity id and website list. -/
theorem C10_retention_and_recomputation_witness :
    process_entry c10rec = some c10ent
  ∧ (c10ent.idList = c10rec.ids
     ∧ sheetEntityId c10ent.sdnType c10ent.firstName c10ent.lastName
         = c10ent.entity_id
     ∧ sheetWebsites c10ent.idList = c10ent.websites) :=
  ⟨by decide, C10_retention_and_recomputation c10rec c10ent (by decide)⟩

end OFAC
